import Mathlib

/-!
Verification of the im.darts core: the player/turn state machine and the
board hit-resolution algorithm, shallowly embedded from the React component
`DartsManagerApp` (the single source file of the repository).

Conventions of the embedding:
* JS numbers that only ever hold integers (scores, deltas, indices, ids)
  become `Int`/`Nat`; geometric quantities become `ℚ` with exact arithmetic.
* A JS array read `a[i]` that yields `undefined` followed by an operation
  that throws a `TypeError` (spreading `undefined.history`, reading
  `undefined[0]`) is modelled by `Option`: `none` is the thrown exception,
  `some s` is a completed state update.
* JS `%` on numbers is the truncated remainder, modelled by `Int.tmod`
  (for the rational `(atanDeg + 90 + 360) % 360` the dividend is
  non-negative, where truncated and floored remainder agree).
* JS `Math.round` rounds half toward positive infinity: `⌊x + 1/2⌋`.
-/

namespace ImDarts

/-- One entry of a player history list: `{ desc, delta }` from the source. -/
structure ScoreEvent where
  desc : String
  delta : Int
  deriving Repr, DecidableEq

/-- The `Player` type of the source. -/
structure Player where
  id : String
  name : String
  score : Int
  history : List ScoreEvent
  deriving Repr, DecidableEq

/-- The state hooks of the component gathered into one record:
`startingScore`, `players`, `activePlayerIndex`, `isRunning`, `nextId`.
(The purely presentational hooks `showAddPlayer`, `newPlayerName`,
`showDebug`, `lastHit` are omitted; no claim mentions them.) -/
structure GameState where
  startingScore : Int
  players : List Player
  activePlayerIndex : Int
  isRunning : Bool
  nextId : Int
  deriving Repr, DecidableEq

/-- JS array read `l[i]` for a possibly out-of-range or negative index:
`undefined` becomes `none`. -/
def listGetI (l : List α) (i : Int) : Option α :=
  if i < 0 then none else l.get? i.toNat

/-- JS array write `l[i] = a` as used in the source (only reached with an
in-range index). -/
def listSetI (l : List α) (i : Int) (a : α) : List α :=
  if i < 0 then l else l.set i.toNat a

/-- Sum of the `delta` fields of a history. -/
def sumDeltas (h : List ScoreEvent) : Int :=
  (h.map (fun e => e.delta)).sum

/-- Source `addPlayer(name)`: appends `{ id: String(nextId), name: name || default,
score: startingScore, history: [] }` and increments `nextId`. -/
def addPlayer (s : GameState) (name : String) : GameState :=
  let p : Player :=
    { id := toString s.nextId
      name := if name = "" then "Игрок: " ++ toString s.nextId else name
      score := s.startingScore
      history := [] }
  { s with players := s.players ++ [p], nextId := s.nextId + 1 }

/-- Source `resetGame()`: every player back to `startingScore` with empty history,
`activePlayerIndex = 0`, `isRunning = false`. -/
def resetGame (s : GameState) : GameState :=
  { s with
    players := s.players.map (fun pl => { pl with score := s.startingScore, history := [] })
    activePlayerIndex := 0
    isRunning := false }

/-- Source `removePlayer(id)`: filters out players with the given id and sets
`activePlayerIndex` to 0 unconditionally. -/
def removePlayer (s : GameState) (id : String) : GameState :=
  { s with
    players := s.players.filter (fun p => p.id != id)
    activePlayerIndex := 0 }

/-- The label argument of `recordHit`: the source passes either a string
(bull labels) or a sector number. -/
def descOf (label : String ⊕ Int) (multiplier : Int) : String :=
  match label with
  | Sum.inl str => str
  | Sum.inr n => toString multiplier ++ "×" ++ toString n

/-- Source `recordHit(playerIndex, label, multiplier, rawScore)`. With an in-range
index it adds `delta = -rawScore` to the score of that player and prepends the
event. With an out-of-range index `copy[playerIndex]` is `undefined` and
`[...pl.history]` throws a `TypeError` (`none`); no state is updated. -/
def recordHit (s : GameState) (playerIndex : Int) (label : String ⊕ Int)
    (multiplier rawScore : Int) : Option GameState :=
  match listGetI s.players playerIndex with
  | none => none
  | some pl =>
    let delta : Int := -rawScore
    let pl' : Player :=
      { pl with
        score := pl.score + delta
        history := { desc := descOf label multiplier, delta := delta } :: pl.history }
    some { s with players := listSetI s.players playerIndex pl' }

/-- Source `undoLast(playerIndex)`. In-range index, non-empty history: removes the
front event and subtracts its delta. In-range index, empty history: returns
`prev` unchanged. Out-of-range index: `pl.history` is `undefined` and
`pl.history[0]` throws a `TypeError` (`none`). -/
def undoLast (s : GameState) (playerIndex : Int) : Option GameState :=
  match listGetI s.players playerIndex with
  | none => none
  | some pl =>
    match pl.history with
    | [] => some s
    | last :: rest =>
      let pl' : Player := { pl with score := pl.score - last.delta, history := rest }
      some { s with players := listSetI s.players playerIndex pl' }

/-- Source `nextTurn()`: `(i + 1) % players.length`, or 0 when the list is empty.
JS `%` is the truncated remainder, `Int.tmod`. -/
def nextTurn (s : GameState) : GameState :=
  { s with
    activePlayerIndex :=
      if s.players.length = 0 then 0
      else Int.tmod (s.activePlayerIndex + 1) (s.players.length : Int) }

/-- Source `setStartingScore(n)` (the `InputNumber` onChange): updates the
configured starting score only. -/
def setStartingScore (s : GameState) (n : Int) : GameState :=
  { s with startingScore := n }

/-- The start/pause button: toggles `isRunning`. -/
def toggleRunning (s : GameState) : GameState :=
  { s with isRunning := !s.isRunning }

/-- The commands of the state machine. -/
inductive Op where
  | addPlayer (name : String)
  | removePlayer (id : String)
  | recordHit (playerIndex : Int) (label : String ⊕ Int) (multiplier rawScore : Int)
  | undoLast (playerIndex : Int)
  | nextTurn
  | resetGame
  | setStartingScore (n : Int)
  | toggleRunning

/-- Applying one command; `none` when the command throws. -/
def applyOp (s : GameState) : Op → Option GameState
  | Op.addPlayer name => some (addPlayer s name)
  | Op.removePlayer id => some (removePlayer s id)
  | Op.recordHit i label mult raw => recordHit s i label mult raw
  | Op.undoLast i => undoLast s i
  | Op.nextTurn => some (nextTurn s)
  | Op.resetGame => some (resetGame s)
  | Op.setStartingScore n => some (setStartingScore s n)
  | Op.toggleRunning => some (toggleRunning s)

/-- The initial state of the component hooks. -/
def initialState : GameState :=
  { startingScore := 501, players := [], activePlayerIndex := 0,
    isRunning := false, nextId := 1 }

/-- States reachable from the initial state by completed commands. -/
inductive Reachable : GameState → Prop where
  | init : Reachable initialState
  | step {s : GameState} {op : Op} {s' : GameState} :
      Reachable s → applyOp s op = some s' → Reachable s'

/-- Whether a command is `setStartingScore`. -/
def Op.isSetStartingScore : Op → Bool
  | Op.setStartingScore _ => true
  | _ => false

/-- States reachable without ever calling `setStartingScore`. -/
inductive ReachableNoConfig : GameState → Prop where
  | init : ReachableNoConfig initialState
  | step {s : GameState} {op : Op} {s' : GameState} :
      ReachableNoConfig s → op.isSetStartingScore = false →
      applyOp s op = some s' → ReachableNoConfig s'

/-- The score/history invariant, decidably:
`score == startingScore + sum(e.delta for e in history)` for every player. -/
def invariantHolds (s : GameState) : Bool :=
  s.players.all (fun p => p.score == s.startingScore + sumDeltas p.history)

/-! ## Board geometry and the hit resolver (`onBoardClick`)

The source computes `distPx = Math.hypot(x, y)` and
`atanDeg = Math.atan2(y, x) * 180 / Math.PI`; both are transcendental, so
the embedding takes `distPx` and `atanDeg` as inputs (exact rationals)
together with the pixel radius `Rpx = rect.width / 2`, and embeds
everything from there on. `Math.atan2` ranges over [-180, 180] after the
degree conversion; claims about the angle path carry that bound. -/

def SECTORS : List Int := [20, 1, 18, 4, 13, 6, 10, 15, 2, 17, 3, 19, 7, 16, 8, 11, 14, 9, 12, 5]

def SVG_RADIUS : ℚ := 50
def BOARD_OUTER : ℚ := 48
def DOUBLE_OUTER : ℚ := 44
def DOUBLE_INNER : ℚ := 38
def TRIPLE_OUTER : ℚ := 28
def TRIPLE_INNER : ℚ := 23
def OUTER_BULL_R : ℚ := 10
def INNER_BULL_R : ℚ := 5

/-- Truncation toward zero on ℚ, the `trunc` underlying the JS `%`. -/
def qtrunc (x : ℚ) : Int :=
  if 0 ≤ x then ⌊x⌋ else -⌊-x⌋

/-- JS `a % b` on numbers: truncated remainder `a - b * trunc(a / b)`. -/
def jsMod (a b : ℚ) : ℚ :=
  a - b * qtrunc (a / b)

/-- JS `Math.round`: round half toward positive infinity, `⌊x + 1/2⌋`. -/
def jsRound (x : ℚ) : Int :=
  ⌊x + 1 / 2⌋

/-- The value a click resolves to: the arguments handed to `recordHit`
(`label` is the bull string or the sector number) plus the computed sector
index. Bull branches never compute a sector. -/
structure Hit where
  label : String ⊕ Int
  sectorIndex : Option Int
  mult : Int
  rawScore : Int
  deriving Repr, DecidableEq

/-- The sector number of a hit: present exactly when the label passed to
`recordHit` is a number (non-bull hits). -/
def Hit.sectorNumber (h : Hit) : Option Int :=
  match h.label with
  | Sum.inl _ => none
  | Sum.inr n => some n

/-- The hit-resolution path of `onBoardClick`, from `distPx`, `atanDeg`
and `Rpx` on: pixel-scaled ring radii, bull tests, angle-from-top,
nearest-sector rounding, ring multiplier, `rawScore = sectorNumber * mult`. -/
def resolveHit (Rpx distPx atanDeg : ℚ) : Hit :=
  let innerBullR_px := Rpx * (INNER_BULL_R / SVG_RADIUS)
  let outerBullR_px := Rpx * (OUTER_BULL_R / SVG_RADIUS)
  let tripleOuter_px := Rpx * (TRIPLE_OUTER / SVG_RADIUS)
  let tripleInner_px := Rpx * (TRIPLE_INNER / SVG_RADIUS)
  let doubleOuter_px := Rpx * (DOUBLE_OUTER / SVG_RADIUS)
  let doubleInner_px := Rpx * (DOUBLE_INNER / SVG_RADIUS)
  if distPx ≤ innerBullR_px then
    { label := Sum.inl "Яблочко (50)", sectorIndex := none, mult := 1, rawScore := 50 }
  else if distPx ≤ outerBullR_px then
    { label := Sum.inl "Внешний центр (25)", sectorIndex := none, mult := 1, rawScore := 25 }
  else
    let angleFromTop := jsMod (atanDeg + 90 + 360) 360
    let sectorFloat := angleFromTop / 18
    let sectorIndex := Int.tmod (jsRound sectorFloat) 20
    let sectorNumber := SECTORS.getD sectorIndex.toNat 0
    let mult : Int :=
      if tripleInner_px ≤ distPx ∧ distPx ≤ tripleOuter_px then 3
      else if doubleInner_px ≤ distPx ∧ distPx ≤ doubleOuter_px then 2
      else 1
    { label := Sum.inr sectorNumber, sectorIndex := some sectorIndex,
      mult := mult, rawScore := sectorNumber * mult }

/-- Modelled from the spec: the normalized-space classification of §4.1/§4.2
(the consumer maps the on-screen distance by `50 / displayRadius` and
compares against the ring radii 5, 10, 23, 28, 38, 44 directly); the angle
path is as in §4.2. Used only to compare with `resolveHit`. -/
def resolveHitNormalized (distN atanDeg : ℚ) : Hit :=
  if distN ≤ INNER_BULL_R then
    { label := Sum.inl "Яблочко (50)", sectorIndex := none, mult := 1, rawScore := 50 }
  else if distN ≤ OUTER_BULL_R then
    { label := Sum.inl "Внешний центр (25)", sectorIndex := none, mult := 1, rawScore := 25 }
  else
    let angleFromTop := jsMod (atanDeg + 90 + 360) 360
    let sectorFloat := angleFromTop / 18
    let sectorIndex := Int.tmod (jsRound sectorFloat) 20
    let sectorNumber := SECTORS.getD sectorIndex.toNat 0
    let mult : Int :=
      if TRIPLE_INNER ≤ distN ∧ distN ≤ TRIPLE_OUTER then 3
      else if DOUBLE_INNER ≤ distN ∧ distN ≤ DOUBLE_OUTER then 2
      else 1
    { label := Sum.inr sectorNumber, sectorIndex := some sectorIndex,
      mult := mult, rawScore := sectorNumber * mult }

/-- A concrete one-player state used to instantiate the theorems. -/
def onePlayerState : GameState :=
  { startingScore := 501
    players := [{ id := "1", name := "A", score := 501, history := [] }]
    activePlayerIndex := 0
    isRunning := false
    nextId := 2 }

/-- A concrete two-player state at `activePlayerIndex = 1`, used to
instantiate the theorems. -/
def twoPlayerState : GameState :=
  { startingScore := 501
    players := [{ id := "1", name := "A", score := 501, history := [] },
                { id := "2", name := "B", score := 441, history := [{ desc := "3×20", delta := -60 }] }]
    activePlayerIndex := 1
    isRunning := true
    nextId := 3 }

/-- A concrete three-player state at `activePlayerIndex = 2`, used for the
`removePlayer` claims. -/
def threePlayerState : GameState :=
  { startingScore := 301
    players := [{ id := "1", name := "A", score := 301, history := [] },
                { id := "2", name := "B", score := 301, history := [] },
                { id := "3", name := "C", score := 301, history := [] }]
    activePlayerIndex := 2
    isRunning := true
    nextId := 4 }

/-- Propositional form of `invariantHolds`. -/
def Invariant (s : GameState) : Prop :=
  ∀ p ∈ s.players, p.score = s.startingScore + sumDeltas p.history

/-- The state reached by `addPlayer("A")` followed by
`setStartingScore(301)`: the player keeps its creation-time score 501
while the configured starting score is now 301. -/
def staleScoreState : GameState :=
  { startingScore := 301
    players := [{ id := "1", name := "A", score := 501, history := [] }]
    activePlayerIndex := 0
    isRunning := false
    nextId := 2 }

/-- The state reached by `addPlayer("A")` followed by
`recordHit(0, 20, 3, 60)`. -/
def recordedChainState : GameState :=
  { startingScore := 501
    players := [{ id := "1", name := "A", score := 441,
                  history := [{ desc := "3×20", delta := -60 }] }]
    activePlayerIndex := 0
    isRunning := false
    nextId := 2 }

/-! ## Helper lemmas about the indexed list operations -/

theorem set_get?_self {α : Type _} (l : List α) (n : Nat) (a : α)
    (h : l.get? n = some a) : l.set n a = l := by
  induction l generalizing n with
  | nil => simp [List.get?] at h
  | cons x xs ih =>
    cases n with
    | zero => simp [List.get?] at h; simp [List.set, h]
    | succ m =>
      simp only [List.get?] at h
      simp [List.set, ih m h]

theorem listGetI_nonneg {α : Type _} (l : List α) (i : Int) (h0 : 0 ≤ i) :
    listGetI l i = l.get? i.toNat := by
  simp [listGetI, not_lt.mpr h0]

theorem listGetI_none_of_out {α : Type _} (l : List α) (i : Int)
    (h : i < 0 ∨ (l.length : Int) ≤ i) : listGetI l i = none := by
  rcases h with h | h
  · simp [listGetI, h]
  · have h0 : 0 ≤ i := le_trans (by positivity) h
    rw [listGetI_nonneg l i h0, List.get?_eq_none]
    omega

theorem listGetI_valid {α : Type _} (l : List α) (i : Int)
    (h0 : 0 ≤ i) (h : i < (l.length : Int)) : ∃ a, listGetI l i = some a := by
  rw [listGetI_nonneg l i h0]
  have hlt : i.toNat < l.length := by omega
  exact ⟨l.get ⟨i.toNat, hlt⟩, List.get?_eq_get hlt⟩

theorem listSetI_nonneg {α : Type _} (l : List α) (i : Int) (a : α) (h0 : 0 ≤ i) :
    listSetI l i a = l.set i.toNat a := by
  simp [listSetI, not_lt.mpr h0]

theorem listGetI_not_neg {α : Type _} {l : List α} {i : Int} {a : α}
    (h : listGetI l i = some a) : 0 ≤ i := by
  by_contra hneg
  rw [listGetI_none_of_out l i (Or.inl (by omega))] at h
  exact Option.noConfusion h

theorem listSetI_listGetI {α : Type _} {l : List α} {i : Int} {a : α}
    (h : listGetI l i = some a) : listSetI l i a = l := by
  have h0 : 0 ≤ i := listGetI_not_neg h
  rw [listGetI_nonneg l i h0] at h
  rw [listSetI_nonneg l i a h0]
  exact set_get?_self l i.toNat a h

theorem listGetI_setI_self {α : Type _} {l : List α} {i : Int} {a : α} (b : α)
    (h : listGetI l i = some a) : listGetI (listSetI l i b) i = some b := by
  have h0 : 0 ≤ i := listGetI_not_neg h
  rw [listGetI_nonneg l i h0] at h
  have hlt : i.toNat < l.length := by
    by_contra hge
    rw [List.get?_eq_none.mpr (by omega)] at h
    exact Option.noConfusion h
  rw [listSetI_nonneg l i b h0, listGetI_nonneg _ i h0]
  exact List.get?_set_eq_of_lt b hlt

theorem listSetI_setI {α : Type _} (l : List α) (i : Int) (a b : α) :
    listSetI (listSetI l i a) i b = listSetI l i b := by
  by_cases hneg : i < 0
  · simp [listSetI, hneg]
  · simp [listSetI, hneg, List.set_set]

theorem length_listSetI {α : Type _} (l : List α) (i : Int) (a : α) :
    (listSetI l i a).length = l.length := by
  by_cases hneg : i < 0
  · simp [listSetI, hneg]
  · simp [listSetI, hneg]

theorem listGetI_setI_ne {α : Type _} (l : List α) (i j : Int) (a : α) (hne : j ≠ i) :
    listGetI (listSetI l i a) j = listGetI l j := by
  by_cases hj : j < 0
  · simp [listGetI, hj]
  · by_cases hi : i < 0
    · simp [listSetI, hi]
    · rw [listSetI_nonneg l i a (by omega), listGetI_nonneg _ j (by omega),
        listGetI_nonneg l j (by omega)]
      exact List.get?_set_ne a l (by omega)

/-! ## Claim C2: undo inverts record -/

/-- C2: for every state `S`, every in-range `playerIndex` `i`
(`0 ≤ i < playerCount`) and every hit (label, multiplier, rawScore),
running `undoLast(i)` immediately after `recordHit(i, hit)` restores `S`
exactly — the whole state, with the score and history of every player. -/
theorem undo_inverts_record (s : GameState) (i : Int) (label : String ⊕ Int)
    (multiplier rawScore : Int)
    (h0 : 0 ≤ i) (hlen : i < (s.players.length : Int)) :
    (recordHit s i label multiplier rawScore).bind (fun s' => undoLast s' i) = some s := by
  obtain ⟨pl, hpl⟩ := listGetI_valid s.players i h0 hlen
  have hscore : pl.score + -rawScore - -rawScore = pl.score := by ring
  simp only [recordHit, hpl, Option.some_bind, undoLast, listGetI_setI_self _ hpl,
    listSetI_setI, hscore]
  have hpl' : (⟨pl.id, pl.name, pl.score, pl.history⟩ : Player) = pl := rfl
  rw [hpl', listSetI_listGetI hpl]

/-- Witness for C2: a triple-20 recorded for the single player of a concrete
state and then undone restores that state. -/
theorem undo_inverts_record_witness :
    (recordHit onePlayerState 0 (Sum.inr 20) 3 60).bind
      (fun s' => undoLast s' 0) = some onePlayerState :=
  undo_inverts_record onePlayerState 0 (Sum.inr 20) 3 60 (by decide) (by decide)

/-! ## Claim C8: recordHit touches exactly one player -/

/-- C8: for every state and in-range `playerIndex` `i`, `recordHit` succeeds
and changes only the score and history of player `i`: `startingScore`,
`activePlayerIndex`, `isRunning`, the id counter, the number of players,
every other player, and the id and name of player `i` are all unchanged. -/
theorem record_hit_frame (s : GameState) (i : Int) (label : String ⊕ Int)
    (multiplier rawScore : Int)
    (h0 : 0 ≤ i) (hlen : i < (s.players.length : Int)) :
    ∃ s', recordHit s i label multiplier rawScore = some s' ∧
      s'.startingScore = s.startingScore ∧
      s'.activePlayerIndex = s.activePlayerIndex ∧
      s'.isRunning = s.isRunning ∧
      s'.nextId = s.nextId ∧
      s'.players.length = s.players.length ∧
      (∀ j : Int, j ≠ i → listGetI s'.players j = listGetI s.players j) ∧
      ∃ pl pl', listGetI s.players i = some pl ∧ listGetI s'.players i = some pl' ∧
        pl'.id = pl.id ∧ pl'.name = pl.name ∧
        pl'.score = pl.score - rawScore ∧
        pl'.history = { desc := descOf label multiplier, delta := -rawScore } :: pl.history := by
  obtain ⟨pl, hpl⟩ := listGetI_valid s.players i h0 hlen
  refine ⟨{ s with players := listSetI s.players i { pl with score := pl.score + -rawScore, history := { desc := descOf label multiplier, delta := -rawScore } :: pl.history } }, by simp only [recordHit, hpl], rfl, rfl, rfl, rfl, ?_, ?_, ?_⟩
  · exact length_listSetI s.players i _
  · exact fun j hj => listGetI_setI_ne s.players i j _ hj
  · exact ⟨pl, _, hpl, listGetI_setI_self _ hpl, rfl, rfl, by simp; ring, rfl⟩

/-- Witness for C8: instantiating the frame property at a concrete
one-player state and a recorded triple 20. -/
theorem record_hit_frame_witness :
    ∃ s', recordHit onePlayerState 0 (Sum.inr 20) 3 60 = some s' ∧
      s'.startingScore = onePlayerState.startingScore ∧
      s'.activePlayerIndex = onePlayerState.activePlayerIndex ∧
      s'.isRunning = onePlayerState.isRunning ∧
      s'.nextId = onePlayerState.nextId ∧
      s'.players.length = onePlayerState.players.length ∧
      (∀ j : Int, j ≠ 0 → listGetI s'.players j = listGetI onePlayerState.players j) ∧
      ∃ pl pl', listGetI onePlayerState.players 0 = some pl ∧
        listGetI s'.players 0 = some pl' ∧
        pl'.id = pl.id ∧ pl'.name = pl.name ∧
        pl'.score = pl.score - 60 ∧
        pl'.history = { desc := descOf (Sum.inr 20) 3, delta := -60 } :: pl.history :=
  record_hit_frame onePlayerState 0 (Sum.inr 20) 3 60 (by decide) (by decide)

/-! ## Claim C9: turn cycling -/

theorem nextTurn_players (s : GameState) : (nextTurn s).players = s.players := rfl

theorem iterate_nextTurn_players (s : GameState) (k : Nat) :
    (nextTurn^[k] s).players = s.players := by
  induction k with
  | zero => rfl
  | succ m ih => rw [Function.iterate_succ_apply', nextTurn_players, ih]

theorem nextTurn_index (s : GameState) (hlen : s.players.length ≠ 0)
    (h0 : 0 ≤ s.activePlayerIndex) :
    (nextTurn s).activePlayerIndex =
      (s.activePlayerIndex + 1) % (s.players.length : Int) := by
  simp only [nextTurn, if_neg hlen]
  exact Int.tmod_eq_emod (by omega) (by positivity)

theorem iterate_nextTurn_index (s : GameState) (hlen : s.players.length ≠ 0)
    (h0 : 0 ≤ s.activePlayerIndex) (k : Nat) :
    (nextTurn^[k + 1] s).activePlayerIndex =
      (s.activePlayerIndex + (k + 1)) % (s.players.length : Int) := by
  induction k with
  | zero => simpa using nextTurn_index s hlen h0
  | succ m ih =>
    have hlen' : (nextTurn^[m + 1] s).players.length ≠ 0 := by
      rw [iterate_nextTurn_players]; exact hlen
    have hcast : ((nextTurn^[m + 1] s).players.length : Int) = (s.players.length : Int) := by
      rw [iterate_nextTurn_players]
    have h0' : 0 ≤ (nextTurn^[m + 1] s).activePlayerIndex := by
      rw [ih]
      exact Int.emod_nonneg _ (by exact_mod_cast hlen)
    rw [Function.iterate_succ_apply', nextTurn_index _ hlen' h0', ih, hcast,
      Int.emod_add_emod]
    push_cast
    ring_nf

/-- C9: for every state with at least one player and an in-range
`activePlayerIndex`, a single `nextTurn()` maps the index to
`(activePlayerIndex + 1) mod playerCount`, each later application in a
run of calls likewise advances the current index by one modulo
`playerCount`, and `playerCount` successive `nextTurn()` calls return the
index to its original value. -/
theorem next_turn_cycles (s : GameState)
    (hlen : 1 ≤ s.players.length)
    (h0 : 0 ≤ s.activePlayerIndex)
    (hlt : s.activePlayerIndex < (s.players.length : Int)) :
    (nextTurn^[s.players.length] s).activePlayerIndex = s.activePlayerIndex ∧
    (nextTurn s).activePlayerIndex =
      (s.activePlayerIndex + 1) % (s.players.length : Int) ∧
    (∀ k : Nat, (nextTurn^[k + 1] s).activePlayerIndex =
      ((nextTurn^[k] s).activePlayerIndex + 1) % (s.players.length : Int)) := by
  have hne : s.players.length ≠ 0 := by omega
  refine ⟨?_, nextTurn_index s hne h0, ?_⟩
  · obtain ⟨k, hk⟩ : ∃ k, s.players.length = k + 1 := ⟨s.players.length - 1, by omega⟩
    have := iterate_nextTurn_index s hne h0 k
    rw [← hk] at this
    rw [this]
    have hcast : ((k : Int) + 1) = (s.players.length : Int) := by exact_mod_cast hk.symm
    push_cast [hk]
    rw [hcast]
    have hmul : s.activePlayerIndex + (s.players.length : Int) =
        s.activePlayerIndex + (s.players.length : Int) * 1 := by ring
    rw [hmul, Int.add_mul_emod_self_left]
    exact Int.emod_eq_of_lt h0 hlt
  · intro k
    cases k with
    | zero => simpa using nextTurn_index s hne h0
    | succ m =>
      rw [iterate_nextTurn_index s hne h0 (m + 1), iterate_nextTurn_index s hne h0 m,
        Int.emod_add_emod]
      push_cast
      ring_nf

/-- Witness for C9: a concrete two-player state at `activePlayerIndex = 1`
cycles back after two turns, and one turn moves it to `(1 + 1) % 2`. -/
theorem next_turn_cycles_witness :
    (nextTurn^[twoPlayerState.players.length] twoPlayerState).activePlayerIndex =
      twoPlayerState.activePlayerIndex ∧
    (nextTurn twoPlayerState).activePlayerIndex =
      (twoPlayerState.activePlayerIndex + 1) % (twoPlayerState.players.length : Int) ∧
    (∀ k : Nat, (nextTurn^[k + 1] twoPlayerState).activePlayerIndex =
      ((nextTurn^[k] twoPlayerState).activePlayerIndex + 1) %
        (twoPlayerState.players.length : Int)) :=
  next_turn_cycles twoPlayerState (by decide) (by decide) (by decide)

/-! ## Claim C7: removePlayer -/

/-- Counterexample to C7 as stated: on a concrete three-player state with
`activePlayerIndex = 2`, `removePlayer` with an id matching no player leaves
the player list unchanged but still resets `activePlayerIndex` to 0, so the
state is not left unchanged. -/
theorem remove_player_unmatched_counterexample :
    (removePlayer threePlayerState "zzz").players = threePlayerState.players ∧
    (removePlayer threePlayerState "zzz").activePlayerIndex = 0 ∧
    threePlayerState.activePlayerIndex = 2 ∧
    removePlayer threePlayerState "zzz" ≠ threePlayerState := by
  refine ⟨by decide, by decide, by decide, by decide⟩

/-- C7 (amended): `removePlayer(id)` keeps exactly the players whose id
differs from `id` (deleting exactly the matching player when ids are
unique), leaves all fields other than the player list and
`activePlayerIndex` unchanged, and resets `activePlayerIndex` to 0
unconditionally — also when no player matches, in which case the player
list itself is unchanged. -/
theorem remove_player_behavior (s : GameState) (id : String) :
    (removePlayer s id).activePlayerIndex = 0 ∧
    (removePlayer s id).startingScore = s.startingScore ∧
    (removePlayer s id).isRunning = s.isRunning ∧
    (removePlayer s id).nextId = s.nextId ∧
    (removePlayer s id).players = s.players.filter (fun p => p.id != id) ∧
    ((∀ p ∈ s.players, p.id ≠ id) → (removePlayer s id).players = s.players) ∧
    (∀ l1 l2 p, s.players = l1 ++ p :: l2 → p.id = id →
      (∀ q ∈ l1, q.id ≠ id) →
      (removePlayer s id).players = l1 ++ l2.filter (fun p => p.id != id)) := by
  refine ⟨rfl, rfl, rfl, rfl, rfl, ?_, ?_⟩
  · intro h
    exact List.filter_eq_self.mpr fun p hp => bne_iff_ne.mpr (h p hp)
  · intro l1 l2 p hsplit hpid h1
    simp only [removePlayer, hsplit, List.filter_append, List.filter_cons]
    rw [List.filter_eq_self.mpr fun q hq => bne_iff_ne.mpr (h1 q hq)]
    simp [hpid]

/-- Witness for C7 (amended): instantiated on the concrete three-player
state, removing the id "2". -/
theorem remove_player_behavior_witness :
    (removePlayer threePlayerState "2").activePlayerIndex = 0 ∧
    (removePlayer threePlayerState "2").startingScore = threePlayerState.startingScore ∧
    (removePlayer threePlayerState "2").isRunning = threePlayerState.isRunning ∧
    (removePlayer threePlayerState "2").nextId = threePlayerState.nextId ∧
    (removePlayer threePlayerState "2").players =
      threePlayerState.players.filter (fun p => p.id != "2") ∧
    ((∀ p ∈ threePlayerState.players, p.id ≠ "2") →
      (removePlayer threePlayerState "2").players = threePlayerState.players) ∧
    (∀ l1 l2 p, threePlayerState.players = l1 ++ p :: l2 → p.id = "2" →
      (∀ q ∈ l1, q.id ≠ "2") →
      (removePlayer threePlayerState "2").players =
        l1 ++ l2.filter (fun p => p.id != "2")) :=
  remove_player_behavior threePlayerState "2"

/-! ## Claim C3: out-of-range indices -/

/-- Counterexample to C3 as stated: on the initial state (empty player
list) both `recordHit(0, …)` and `undoLast(0)` read the undefined slot
`players[0]` and throw a `TypeError` (`none` in the embedding) — they are
not no-ops returning the state unchanged (`some initialState`). -/
theorem out_of_range_counterexample :
    recordHit initialState 0 (Sum.inr 20) 1 20 = none ∧
    undoLast initialState 0 = none ∧
    recordHit initialState 0 (Sum.inr 20) 1 20 ≠ some initialState ∧
    undoLast initialState 0 ≠ some initialState := by
  refine ⟨rfl, rfl, by decide, by decide⟩

/-- C3 (amended): for every state and every `playerIndex` outside
`[0, playerCount)` — the empty player list included — `recordHit` and
`undoLast` throw a `TypeError` (spreading resp. indexing the undefined
player `history`): no state update is applied, but the calls are crashes,
not silent no-ops. -/
theorem out_of_range_throws (s : GameState) (i : Int) (label : String ⊕ Int)
    (multiplier rawScore : Int)
    (h : i < 0 ∨ (s.players.length : Int) ≤ i) :
    recordHit s i label multiplier rawScore = none ∧ undoLast s i = none := by
  have hg := listGetI_none_of_out s.players i h
  exact ⟨by simp only [recordHit, hg], by simp only [undoLast, hg]⟩

/-- Witness for C3 (amended): a negative index on a concrete one-player
state throws in both operations. -/
theorem out_of_range_throws_witness :
    recordHit onePlayerState (-1) (Sum.inr 20) 1 20 = none ∧
    undoLast onePlayerState (-1) = none :=
  out_of_range_throws onePlayerState (-1) (Sum.inr 20) 1 20 (Or.inl (by decide))

/-! ## Claim C1: the score/history invariant -/

theorem sumDeltas_nil : sumDeltas [] = 0 := rfl

theorem sumDeltas_cons (e : ScoreEvent) (h : List ScoreEvent) :
    sumDeltas (e :: h) = e.delta + sumDeltas h := by
  simp [sumDeltas]

theorem invariantHolds_iff (s : GameState) :
    invariantHolds s = true ↔ Invariant s := by
  simp [invariantHolds, Invariant, List.all_eq_true]

theorem listGetI_mem {α : Type _} {l : List α} {i : Int} {a : α}
    (h : listGetI l i = some a) : a ∈ l := by
  have h0 : 0 ≤ i := listGetI_not_neg h
  rw [listGetI_nonneg l i h0] at h
  exact List.get?_mem h

theorem inv_addPlayer {s : GameState} (h : Invariant s) (name : String) :
    Invariant (addPlayer s name) := by
  intro p hp
  simp only [addPlayer, List.mem_append, List.mem_singleton] at hp
  rcases hp with hp | rfl
  · exact h p hp
  · simp [addPlayer, sumDeltas]

theorem inv_removePlayer {s : GameState} (h : Invariant s) (id : String) :
    Invariant (removePlayer s id) := by
  intro p hp
  exact h p (List.mem_of_mem_filter hp)

theorem inv_resetGame (s : GameState) : Invariant (resetGame s) := by
  intro p hp
  simp only [resetGame, List.mem_map] at hp
  obtain ⟨q, _, rfl⟩ := hp
  simp [resetGame, sumDeltas]

theorem inv_nextTurn {s : GameState} (h : Invariant s) : Invariant (nextTurn s) := h

theorem inv_toggleRunning {s : GameState} (h : Invariant s) :
    Invariant (toggleRunning s) := h

theorem inv_recordHit {s s' : GameState} (h : Invariant s) (i : Int)
    (label : String ⊕ Int) (multiplier rawScore : Int)
    (happ : recordHit s i label multiplier rawScore = some s') : Invariant s' := by
  cases hg : listGetI s.players i with
  | none =>
    simp only [recordHit, hg] at happ
    exact Option.noConfusion happ
  | some pl =>
    simp only [recordHit, hg, Option.some.injEq] at happ
    subst happ
    intro p hp
    have h0 : 0 ≤ i := listGetI_not_neg hg
    rw [listSetI_nonneg _ _ _ h0] at hp
    rcases List.mem_or_eq_of_mem_set hp with hmem | rfl
    · exact h p hmem
    · have hpl := h pl (listGetI_mem hg)
      simp only [sumDeltas_cons]
      simp only at hpl ⊢
      omega

theorem inv_undoLast {s s' : GameState} (h : Invariant s) (i : Int)
    (happ : undoLast s i = some s') : Invariant s' := by
  cases hg : listGetI s.players i with
  | none =>
    simp only [undoLast, hg] at happ
    exact Option.noConfusion happ
  | some pl =>
    cases hh : pl.history with
    | nil =>
      simp only [undoLast, hg, hh, Option.some.injEq] at happ
      subst happ
      exact h
    | cons last rest =>
      simp only [undoLast, hg, hh, Option.some.injEq] at happ
      subst happ
      intro p hp
      have h0 : 0 ≤ i := listGetI_not_neg hg
      rw [listSetI_nonneg _ _ _ h0] at hp
      rcases List.mem_or_eq_of_mem_set hp with hmem | rfl
      · exact h p hmem
      · have hpl := h pl (listGetI_mem hg)
        rw [hh, sumDeltas_cons] at hpl
        simp only at hpl ⊢
        omega

theorem inv_of_reachableNoConfig {s : GameState} (h : ReachableNoConfig s) :
    Invariant s := by
  induction h with
  | init => intro p hp; simp [initialState] at hp
  | @step s op s' _ hns happ ih =>
    cases op with
    | addPlayer name =>
      simp only [applyOp, Option.some.injEq] at happ
      exact happ ▸ inv_addPlayer ih name
    | removePlayer id =>
      simp only [applyOp, Option.some.injEq] at happ
      exact happ ▸ inv_removePlayer ih id
    | recordHit i label multiplier rawScore =>
      exact inv_recordHit ih i label multiplier rawScore happ
    | undoLast i =>
      exact inv_undoLast ih i happ
    | nextTurn =>
      simp only [applyOp, Option.some.injEq] at happ
      exact happ ▸ inv_nextTurn ih
    | resetGame =>
      simp only [applyOp, Option.some.injEq] at happ
      exact happ ▸ inv_resetGame s
    | setStartingScore n =>
      simp [Op.isSetStartingScore] at hns
    | toggleRunning =>
      simp only [applyOp, Option.some.injEq] at happ
      exact happ ▸ inv_toggleRunning ih

/-- Counterexample to C1 as stated: the state reached from the initial
state by `addPlayer("A")` and then `setStartingScore(301)` is reachable
(with `setStartingScore` among the allowed calls), yet the player score of
501 differs from the current configured starting score 301 plus the sum
over the empty history. -/
theorem score_invariant_counterexample :
    Reachable staleScoreState ∧ invariantHolds staleScoreState = false := by
  constructor
  · have h1 : applyOp initialState (Op.addPlayer "A") =
        some ⟨501, [⟨"1", "A", 501, []⟩], 0, false, 2⟩ := rfl
    have h2 : applyOp (⟨501, [⟨"1", "A", 501, []⟩], 0, false, 2⟩ : GameState)
        (Op.setStartingScore 301) = some staleScoreState := rfl
    exact Reachable.step (Reachable.step Reachable.init h1) h2
  · rfl

/-- C1 (amended): for every state reachable by any sequence of
`addPlayer`, `recordHit`, `undoLast`, `resetGame`, `removePlayer`,
`nextTurn` and the running toggle — that is, any sequence without
`setStartingScore` — the score of every player equals the configured
`startingScore` plus the sum of `delta` over that player history.
(A `setStartingScore` call can break this for already-created players,
as the counterexample shows; `resetGame` re-establishes it.) -/
theorem score_history_invariant (s : GameState) (h : ReachableNoConfig s) :
    invariantHolds s = true :=
  (invariantHolds_iff s).mpr (inv_of_reachableNoConfig h)

/-- Witness for C1 (amended): the invariant holds in the concrete state
reached by `addPlayer("A")` then `recordHit(0, 20, 3, 60)`. -/
theorem score_history_invariant_witness :
    invariantHolds recordedChainState = true :=
  score_history_invariant recordedChainState
    (ReachableNoConfig.step
      (ReachableNoConfig.step ReachableNoConfig.init
        (rfl : (Op.addPlayer "A").isSetStartingScore = false) rfl)
      (rfl : (Op.recordHit 0 (Sum.inr 20) 3 60).isSetStartingScore = false) rfl)

/-! ## Hit resolver: shared reductions -/

theorem inner_le_outer (Rpx : ℚ) (hR : 0 ≤ Rpx) :
    Rpx * (INNER_BULL_R / SVG_RADIUS) ≤ Rpx * (OUTER_BULL_R / SVG_RADIUS) := by
  apply mul_le_mul_of_nonneg_left _ hR
  norm_num [INNER_BULL_R, OUTER_BULL_R, SVG_RADIUS]

theorem resolveHit_inner_bull (Rpx distPx atanDeg : ℚ)
    (h : distPx ≤ Rpx * (INNER_BULL_R / SVG_RADIUS)) :
    resolveHit Rpx distPx atanDeg =
      { label := Sum.inl "Яблочко (50)", sectorIndex := none, mult := 1, rawScore := 50 } := by
  simp only [resolveHit]
  rw [if_pos h]

theorem resolveHit_outer_bull (Rpx distPx atanDeg : ℚ)
    (h1 : ¬ distPx ≤ Rpx * (INNER_BULL_R / SVG_RADIUS))
    (h2 : distPx ≤ Rpx * (OUTER_BULL_R / SVG_RADIUS)) :
    resolveHit Rpx distPx atanDeg =
      { label := Sum.inl "Внешний центр (25)", sectorIndex := none, mult := 1, rawScore := 25 } := by
  simp only [resolveHit]
  rw [if_neg h1, if_pos h2]

theorem resolveHit_nonbull (Rpx distPx atanDeg : ℚ) (hR : 0 ≤ Rpx)
    (hnb : Rpx * (OUTER_BULL_R / SVG_RADIUS) < distPx) :
    resolveHit Rpx distPx atanDeg =
      { label := Sum.inr (SECTORS.getD ((Int.tmod (jsRound (jsMod (atanDeg + 90 + 360) 360 / 18)) 20).toNat) 0)
        sectorIndex := some (Int.tmod (jsRound (jsMod (atanDeg + 90 + 360) 360 / 18)) 20)
        mult := if Rpx * (TRIPLE_INNER / SVG_RADIUS) ≤ distPx ∧ distPx ≤ Rpx * (TRIPLE_OUTER / SVG_RADIUS) then 3 else if Rpx * (DOUBLE_INNER / SVG_RADIUS) ≤ distPx ∧ distPx ≤ Rpx * (DOUBLE_OUTER / SVG_RADIUS) then 2 else 1
        rawScore := SECTORS.getD ((Int.tmod (jsRound (jsMod (atanDeg + 90 + 360) 360 / 18)) 20).toNat) 0 * (if Rpx * (TRIPLE_INNER / SVG_RADIUS) ≤ distPx ∧ distPx ≤ Rpx * (TRIPLE_OUTER / SVG_RADIUS) then 3 else if Rpx * (DOUBLE_INNER / SVG_RADIUS) ≤ distPx ∧ distPx ≤ Rpx * (DOUBLE_OUTER / SVG_RADIUS) then 2 else 1) } := by
  have houter : ¬ distPx ≤ Rpx * (OUTER_BULL_R / SVG_RADIUS) := not_le.mpr hnb
  have hinner : ¬ distPx ≤ Rpx * (INNER_BULL_R / SVG_RADIUS) :=
    fun h => houter (le_trans h (inner_le_outer Rpx hR))
  simp only [resolveHit]
  rw [if_neg hinner, if_neg houter]

/-! ## Claim C4: bull precedence -/

/-- C4: any coordinate whose pixel distance is at most the scaled inner
bull radius resolves to the inner bull — `rawScore = 50`, `multiplier = 1`,
no sector number — regardless of the angle; any strictly farther coordinate
within the scaled outer bull radius resolves to `rawScore = 25`,
`multiplier = 1`, no sector number, regardless of the angle. -/
theorem bull_precedence (Rpx distPx atanDeg : ℚ) :
    (distPx ≤ Rpx * (INNER_BULL_R / SVG_RADIUS) →
      (resolveHit Rpx distPx atanDeg).rawScore = 50 ∧
      (resolveHit Rpx distPx atanDeg).mult = 1 ∧
      (resolveHit Rpx distPx atanDeg).sectorNumber = none) ∧
    (Rpx * (INNER_BULL_R / SVG_RADIUS) < distPx →
      distPx ≤ Rpx * (OUTER_BULL_R / SVG_RADIUS) →
      (resolveHit Rpx distPx atanDeg).rawScore = 25 ∧
      (resolveHit Rpx distPx atanDeg).mult = 1 ∧
      (resolveHit Rpx distPx atanDeg).sectorNumber = none) := by
  constructor
  · intro h1
    rw [resolveHit_inner_bull Rpx distPx atanDeg h1]
    exact ⟨rfl, rfl, rfl⟩
  · intro h1 h2
    rw [resolveHit_outer_bull Rpx distPx atanDeg (not_le.mpr h1) h2]
    exact ⟨rfl, rfl, rfl⟩

/-- Witness for C4: a click at pixel distance 3 (of radius 50) is the inner
bull; at distance 9 it is the outer bull, whatever the angles. -/
theorem bull_precedence_witness :
    ((resolveHit 50 3 77).rawScore = 50 ∧
      (resolveHit 50 3 77).mult = 1 ∧
      (resolveHit 50 3 77).sectorNumber = none) ∧
    ((resolveHit 50 9 (-33)).rawScore = 25 ∧
      (resolveHit 50 9 (-33)).mult = 1 ∧
      (resolveHit 50 9 (-33)).sectorNumber = none) :=
  ⟨(bull_precedence 50 3 77).1 (by norm_num [INNER_BULL_R, SVG_RADIUS]),
    (bull_precedence 50 9 (-33)).2 (by norm_num [INNER_BULL_R, SVG_RADIUS])
      (by norm_num [OUTER_BULL_R, SVG_RADIUS])⟩

/-! ## Claim C5: ring multiplier and rawScore for non-bull hits -/

/-- C5: for every non-bull coordinate (pixel distance beyond the scaled
outer bull radius, with no upper bound — in particular beyond the outer rim,
where the click is still resolved rather than rejected): the multiplier is
3 exactly on the closed triple band, else 2 exactly on the closed double
band, else 1; the multiplier depends only on the radial distance; and
`rawScore = sectorNumber × multiplier`. -/
theorem ring_multiplier (Rpx distPx atanDeg : ℚ) (hR : 0 ≤ Rpx)
    (hnb : Rpx * (OUTER_BULL_R / SVG_RADIUS) < distPx) :
    ((resolveHit Rpx distPx atanDeg).mult = 3 ↔
      (Rpx * (TRIPLE_INNER / SVG_RADIUS) ≤ distPx ∧
        distPx ≤ Rpx * (TRIPLE_OUTER / SVG_RADIUS))) ∧
    (¬(Rpx * (TRIPLE_INNER / SVG_RADIUS) ≤ distPx ∧
        distPx ≤ Rpx * (TRIPLE_OUTER / SVG_RADIUS)) →
      ((resolveHit Rpx distPx atanDeg).mult = 2 ↔
        (Rpx * (DOUBLE_INNER / SVG_RADIUS) ≤ distPx ∧
          distPx ≤ Rpx * (DOUBLE_OUTER / SVG_RADIUS)))) ∧
    (¬(Rpx * (TRIPLE_INNER / SVG_RADIUS) ≤ distPx ∧
        distPx ≤ Rpx * (TRIPLE_OUTER / SVG_RADIUS)) →
      ¬(Rpx * (DOUBLE_INNER / SVG_RADIUS) ≤ distPx ∧
        distPx ≤ Rpx * (DOUBLE_OUTER / SVG_RADIUS)) →
      (resolveHit Rpx distPx atanDeg).mult = 1) ∧
    (∃ n : Int, (resolveHit Rpx distPx atanDeg).sectorNumber = some n ∧
      (resolveHit Rpx distPx atanDeg).rawScore = n * (resolveHit Rpx distPx atanDeg).mult) ∧
    (∀ atanDeg' : ℚ,
      (resolveHit Rpx distPx atanDeg').mult = (resolveHit Rpx distPx atanDeg).mult) := by
  rw [resolveHit_nonbull Rpx distPx atanDeg hR hnb]
  refine ⟨?_, ?_, ?_, ?_, ?_⟩
  · dsimp only
    split_ifs with h3 h2 <;> simp [h3]
  · intro h3
    dsimp only
    split_ifs <;> simp_all
  · intro h3 h2
    dsimp only
    split_ifs
    simp_all
  · exact ⟨_, rfl, rfl⟩
  · intro atanDeg'
    rw [resolveHit_nonbull Rpx distPx atanDeg' hR hnb]

/-- Witness for C5: pixel distance 25 of radius 50 (triple band) at angle 0,
all conjuncts instantiated. -/
theorem ring_multiplier_witness :
    ((resolveHit 50 25 0).mult = 3 ↔
      (50 * (TRIPLE_INNER / SVG_RADIUS) ≤ (25:ℚ) ∧
        (25:ℚ) ≤ 50 * (TRIPLE_OUTER / SVG_RADIUS))) ∧
    (¬(50 * (TRIPLE_INNER / SVG_RADIUS) ≤ (25:ℚ) ∧
        (25:ℚ) ≤ 50 * (TRIPLE_OUTER / SVG_RADIUS)) →
      ((resolveHit 50 25 0).mult = 2 ↔
        (50 * (DOUBLE_INNER / SVG_RADIUS) ≤ (25:ℚ) ∧
          (25:ℚ) ≤ 50 * (DOUBLE_OUTER / SVG_RADIUS)))) ∧
    (¬(50 * (TRIPLE_INNER / SVG_RADIUS) ≤ (25:ℚ) ∧
        (25:ℚ) ≤ 50 * (TRIPLE_OUTER / SVG_RADIUS)) →
      ¬(50 * (DOUBLE_INNER / SVG_RADIUS) ≤ (25:ℚ) ∧
        (25:ℚ) ≤ 50 * (DOUBLE_OUTER / SVG_RADIUS)) →
      (resolveHit 50 25 0).mult = 1) ∧
    (∃ n : Int, (resolveHit 50 25 0).sectorNumber = some n ∧
      (resolveHit 50 25 0).rawScore = n * (resolveHit 50 25 0).mult) ∧
    (∀ atanDeg' : ℚ, (resolveHit 50 25 atanDeg').mult = (resolveHit 50 25 0).mult) :=
  ring_multiplier 50 25 0 (by norm_num) (by norm_num [OUTER_BULL_R, SVG_RADIUS])

/-! ## Claim C6: nearest-center sector rounding -/

/-- C6: for every non-bull coordinate, with `atanDeg` in the range
[-180, 180] of `Math.atan2` in degrees: the angle from top
`(atanDeg + 90 + 360) % 360` is the mathematical remainder in [0, 360);
the resolved sector index is `round(angleFromTop / 18) mod 20` with the
mathematical `mod` (the truncated `%` of the code agrees because the rounded
value is non-negative); the index lies in [0, 20) and the sector number is
the `SECTORS` entry at that index; and an exact half-sector angle
`18·k + 9` rounds deterministically up to index `(k + 1) mod 20`
(round-half-up, which on these non-negative arguments equals
round-half-away-from-zero). -/
theorem nearest_sector_rounding (Rpx distPx atanDeg : ℚ) (hR : 0 ≤ Rpx)
    (ha1 : -180 ≤ atanDeg) (_ha2 : atanDeg ≤ 180)
    (hnb : Rpx * (OUTER_BULL_R / SVG_RADIUS) < distPx) :
    0 ≤ jsMod (atanDeg + 90 + 360) 360 ∧
    jsMod (atanDeg + 90 + 360) 360 < 360 ∧
    jsMod (atanDeg + 90 + 360) 360 =
      (atanDeg + 450) - 360 * ⌊(atanDeg + 450) / 360⌋ ∧
    (resolveHit Rpx distPx atanDeg).sectorIndex =
      some (jsRound (jsMod (atanDeg + 90 + 360) 360 / 18) % 20) ∧
    (∃ idx : Int, (resolveHit Rpx distPx atanDeg).sectorIndex = some idx ∧
      0 ≤ idx ∧ idx < 20 ∧
      (resolveHit Rpx distPx atanDeg).sectorNumber = some (SECTORS.getD idx.toNat 0)) ∧
    (∀ k : Nat, k < 20 → jsMod (atanDeg + 90 + 360) 360 = 18 * k + 9 →
      (resolveHit Rpx distPx atanDeg).sectorIndex = some (((k : Int) + 1) % 20)) := by
  have h450 : atanDeg + 90 + 360 = atanDeg + 450 := by ring
  have hnum : (0:ℚ) ≤ atanDeg + 450 := by linarith
  have ha0 : (0:ℚ) ≤ (atanDeg + 90 + 360) / 360 := by
    rw [h450]; positivity
  have hmodeq : jsMod (atanDeg + 90 + 360) 360 =
      (atanDeg + 450) - 360 * ⌊(atanDeg + 450) / 360⌋ := by
    simp only [jsMod, qtrunc, if_pos ha0]
    rw [h450]
  have hflo := Int.floor_le ((atanDeg + 450) / 360)
  have hflt := Int.lt_floor_add_one ((atanDeg + 450) / 360)
  have h0m : 0 ≤ jsMod (atanDeg + 90 + 360) 360 := by
    rw [hmodeq]; nlinarith
  have h1m : jsMod (atanDeg + 90 + 360) 360 < 360 := by
    rw [hmodeq]; nlinarith
  have hround0 : 0 ≤ jsRound (jsMod (atanDeg + 90 + 360) 360 / 18) := by
    apply Int.floor_nonneg.mpr
    have : (0:ℚ) ≤ jsMod (atanDeg + 90 + 360) 360 / 18 := by positivity
    linarith
  have htmod : Int.tmod (jsRound (jsMod (atanDeg + 90 + 360) 360 / 18)) 20 =
      jsRound (jsMod (atanDeg + 90 + 360) 360 / 18) % 20 :=
    Int.tmod_eq_emod hround0 (by norm_num)
  rw [resolveHit_nonbull Rpx distPx atanDeg hR hnb]
  refine ⟨h0m, h1m, hmodeq, ?_, ?_, ?_⟩
  · dsimp only
    rw [htmod]
  · refine ⟨jsRound (jsMod (atanDeg + 90 + 360) 360 / 18) % 20, ?_, ?_, ?_, ?_⟩
    · dsimp only
      rw [htmod]
    · exact Int.emod_nonneg _ (by norm_num)
    · exact Int.emod_lt_of_pos _ (by norm_num)
    · dsimp only [Hit.sectorNumber]
      rw [htmod]
  · intro k hk hhalf
    have hdiv : jsMod (atanDeg + 90 + 360) 360 / 18 + 1 / 2 = (k:ℚ) + 1 := by
      rw [hhalf]; ring
    have hjr : jsRound (jsMod (atanDeg + 90 + 360) 360 / 18) = (k : Int) + 1 := by
      unfold jsRound
      rw [hdiv, show ((k:ℚ) + 1) = (((k : Int) + 1 : Int) : ℚ) by push_cast; ring,
        Int.floor_intCast]
    dsimp only
    rw [hjr, Int.tmod_eq_emod (by omega) (by norm_num)]

/-- Witness for C6: radius 50, pixel distance 40, `atanDeg = -81`, so the
angle from top is the half-sector value 9° (`k = 0`), which rounds up to
sector index 1. -/
theorem nearest_sector_rounding_witness :
    0 ≤ jsMod ((-81 : ℚ) + 90 + 360) 360 ∧
    jsMod ((-81 : ℚ) + 90 + 360) 360 < 360 ∧
    jsMod ((-81 : ℚ) + 90 + 360) 360 =
      ((-81 : ℚ) + 450) - 360 * ⌊((-81 : ℚ) + 450) / 360⌋ ∧
    (resolveHit 50 40 (-81)).sectorIndex =
      some (jsRound (jsMod ((-81 : ℚ) + 90 + 360) 360 / 18) % 20) ∧
    (∃ idx : Int, (resolveHit 50 40 (-81)).sectorIndex = some idx ∧
      0 ≤ idx ∧ idx < 20 ∧
      (resolveHit 50 40 (-81)).sectorNumber = some (SECTORS.getD idx.toNat 0)) ∧
    (∀ k : Nat, k < 20 → jsMod ((-81 : ℚ) + 90 + 360) 360 = 18 * k + 9 →
      (resolveHit 50 40 (-81)).sectorIndex = some (((k : Int) + 1) % 20)) :=
  nearest_sector_rounding 50 40 (-81) (by norm_num) (by norm_num) (by norm_num)
    (by norm_num [OUTER_BULL_R, SVG_RADIUS])

/-! ## Claim C10: pixel-space vs normalized-space classification -/

theorem scale_le (Rpx d r : ℚ) (hR : 0 < Rpx) :
    d ≤ Rpx * (r / SVG_RADIUS) ↔ d * (SVG_RADIUS / Rpx) ≤ r := by
  have h50 : (0:ℚ) < SVG_RADIUS := by norm_num [SVG_RADIUS]
  have hL : d ≤ Rpx * (r / SVG_RADIUS) ↔ d * SVG_RADIUS ≤ Rpx * r := by
    rw [mul_div_assoc']
    exact le_div_iff h50
  have hN : d * (SVG_RADIUS / Rpx) ≤ r ↔ d * SVG_RADIUS ≤ r * Rpx := by
    rw [mul_div_assoc']
    exact div_le_iff hR
  rw [hL, hN, mul_comm Rpx r]

theorem scale_ge (Rpx d r : ℚ) (hR : 0 < Rpx) :
    Rpx * (r / SVG_RADIUS) ≤ d ↔ r ≤ d * (SVG_RADIUS / Rpx) := by
  have h50 : (0:ℚ) < SVG_RADIUS := by norm_num [SVG_RADIUS]
  have hL : Rpx * (r / SVG_RADIUS) ≤ d ↔ Rpx * r ≤ d * SVG_RADIUS := by
    rw [mul_div_assoc']
    exact div_le_iff h50
  have hN : r ≤ d * (SVG_RADIUS / Rpx) ↔ r * Rpx ≤ d * SVG_RADIUS := by
    rw [mul_div_assoc']
    exact le_div_iff hR
  rw [hL, hN, mul_comm Rpx r]

/-- C10: for every positive pixel radius, the pixel-space
classification (pixel distance against each ring radius scaled by
`Rpx / 50`) of the code produces exactly the same `Hit` as the normalized-space
classification (distance rescaled by `50 / Rpx` against the raw ring radii
5, 10, 23, 28, 38, 44), over exact arithmetic. -/
theorem pixel_normalized_equiv (Rpx distPx atanDeg : ℚ) (hR : 0 < Rpx) :
    resolveHit Rpx distPx atanDeg =
      resolveHitNormalized (distPx * (SVG_RADIUS / Rpx)) atanDeg := by
  have h1 := scale_le Rpx distPx INNER_BULL_R hR
  have h2 := scale_le Rpx distPx OUTER_BULL_R hR
  have h3 := scale_ge Rpx distPx TRIPLE_INNER hR
  have h4 := scale_le Rpx distPx TRIPLE_OUTER hR
  have h5 := scale_ge Rpx distPx DOUBLE_INNER hR
  have h6 := scale_le Rpx distPx DOUBLE_OUTER hR
  simp only [resolveHit, resolveHitNormalized, h1, h2, h3, h4, h5, h6]

/-- Witness for C10: a 230-pixel display radius with a click at pixel
distance 100 and angle 37° classifies identically in both spaces. -/
theorem pixel_normalized_equiv_witness :
    resolveHit 230 100 37 = resolveHitNormalized (100 * (SVG_RADIUS / 230)) 37 :=
  pixel_normalized_equiv 230 100 37 (by norm_num)

end ImDarts
